import Mathlib

/-!
Verification of the listing-reconciliation and geo-resolution logic of the
plots_script repository (scrapers `nieruchomosci_online.py`, `olx.py`,
`otodom.py`).

Embedding conventions:
* Spreadsheet rows are records; a dataframe is a `List` of records in row
  order.  Column "Price at first find" is `priceFirst`, "Date first found"
  is `dateFirst`, "Date last updated" is `dateLast`, "Price last updated"
  is `priceLast`, "Distance from Krakow (km)" is `distance`.
* External effects are oracles passed as function arguments:
  - `geoKm lat lon` models `round(geodesic(KRAKOW_COORDS, (lat, lon)).km, 2)`
    (the geodesic computation of the geopy library, already rounded);
  - `geo q n` models the n-th `geolocator.geocode(q)` call of
    `nieruchomosci_online.get_distance_from_krakow` (a hit, a `None`
    result, or a raised exception);
  - `geoA q n` models the n-th geocode attempt inside `otodom.safe_geocode`
    (`.ok places` for a normal return — `none` standing for Python `None`,
    `some list` for a list of places, a place without coordinates being
    `none` — and `.error ()` for a caught exception);
  - `alive url` models the boolean produced by `olx.check_if_active(url)`;
  - `pf s` models Python `float(s)` (`none` when `float` raises
    `ValueError`);
  - for `olx.check_if_active` itself, `head`/`get` model the outcomes of
    the `requests.head` / `requests.get` calls (`.ok status` or a raised
    exception `.error ()`).
* Python string helpers (`split`, `strip`, `lower`, `in`, `startswith`)
  are re-implemented below on `List Char` so that every definition
  evaluates by kernel reduction; `Char.toLower` matches Python `lower()`
  on ASCII (all inputs relevant here are already lower-case beyond ASCII).
* A `defaultdict(list)` gazetteer `town -> list of (lat, lon)` is flattened
  to a `List (String × ℚ × ℚ)` of entries in insertion order; membership
  `town in TOWN_COORDS` is `fileMatches tc town ≠ []` and
  `TOWN_COORDS[town]` is `fileMatches tc town` (same elements, same
  order).
* Machine floats are modelled as `ℚ`: none of the verified properties
  depends on float rounding, only on comparisons of oracle-produced
  values.
-/

namespace PlotsScript

/-! ### Python-style string helpers (total, kernel-computable) -/

/-- Python `str.lower`, ASCII case folding as in `Char.toLower`. -/
def lowerStr (s : String) : String := ⟨s.data.map Char.toLower⟩

/-- Whitespace recognised by Python `str.strip()` (the cases occurring here). -/
def isWs (c : Char) : Bool := c == ' ' || c == '\t' || c == '\n' || c == '\r'

/-- Python `str.strip()`. -/
def trimStr (s : String) : String :=
  ⟨((s.data.dropWhile isWs).reverse.dropWhile isWs).reverse⟩

/-- Remove `sep` from the front of `l`, if it is there. -/
def stripLead : List Char → List Char → Option (List Char)
  | [], l => some l
  | _ :: _, [] => none
  | s :: ss, c :: cs => if c = s then stripLead ss cs else none

/-- Worker for `splitStr`; `fuel` bounds the recursion (list length suffices). -/
def splitOnFuel (sep : List Char) : Nat → List Char → List (List Char)
  | 0, l => [l]
  | _ + 1, [] => [[]]
  | fuel + 1, c :: cs =>
    match stripLead sep (c :: cs) with
    | some rest => [] :: splitOnFuel sep fuel rest
    | none =>
      match splitOnFuel sep fuel cs with
      | [] => [[c]]
      | g :: gs => (c :: g) :: gs

/-- Python `s.split(sep)` for non-empty `sep` (agrees with `String.splitOn`). -/
def splitStr (s sep : String) : List String :=
  if sep.data.isEmpty then [s]
  else (splitOnFuel sep.data (s.data.length + 1) s.data).map (fun l => ⟨l⟩)

/-- Python `pat in s` (substring test; `pat` non-empty at every use site). -/
def containsSub (s pat : String) : Bool :=
  pat.data.isEmpty || (splitStr s pat).length != 1

/-- Python `not line or line.startswith("#")` applied to a stripped line
(`otodom.load_town_coords`). -/
def isSkipLine (s : String) : Bool :=
  s.data.isEmpty ||
    (match s.data with
     | c :: _ => c == '#'
     | [] => false)

/-! ### Shared constants (`nieruchomosci_online.py` lines 29-53,
`otodom.py` lines 55-59) -/

/-- Constant `MAX_DISTANCE_KM = 50` / `max_distance_from_Krakow = 50`. -/
def MAX_DISTANCE_KM : ℚ := 50

/-- Table `ALLOWED_COUNTIES` (identical list in both scripts). -/
def ALLOWED_COUNTIES : List String :=
  ["krakowski", "wielicki", "wadowicki", "chrzanowski", "olkuski", "myślenicki"]

/-- Table `COUNTY_COORDS` of `nieruchomosci_online.py`. -/
def COUNTY_COORDS : List (String × ℚ × ℚ) :=
  [("krakowski", 50.0647, 19.9450),
   ("wielicki", 49.9871, 20.0644),
   ("wadowicki", 49.8833, 19.4881),
   ("chrzanowski", 50.1376, 19.3988),
   ("olkuski", 50.2810, 19.5653),
   ("myślenicki", 49.8333, 19.9333)]

/-! ### Generic keep-first de-duplication
(pandas `DataFrame.drop_duplicates(subset=...)`, default `keep='first'`) -/

/-- Keep-first de-duplication by key `k`, skipping elements whose key was
already `seen`. -/
def dedupByAux {α κ : Type} [DecidableEq κ] (k : α → κ) (seen : List κ) :
    List α → List α
  | [] => []
  | x :: xs =>
    if k x ∈ seen then dedupByAux k seen xs
    else x :: dedupByAux k (k x :: seen) xs

/-- Pandas `drop_duplicates` by key `k`, keeping the first occurrence of each key. -/
def dedupBy {α κ : Type} [DecidableEq κ] (k : α → κ) (l : List α) : List α :=
  dedupByAux k [] l

/-! ### Data model: spreadsheet rows of the three scripts -/

/-- A row of `nieruchomosci_online_dzialki.xlsx`
(`nieruchomosci_online.py` lines 189-192 / 261-273). -/
structure Rec where
  title : String
  location : String
  priceFirst : String
  dateFirst : String
  dateLast : String
  priceLast : String
  distance : ℚ
  active : Bool
  link : String
  lat : ℚ
  lon : ℚ
deriving DecidableEq, Repr

/-- One listing scraped by `nieruchomosci_online.main` before row fan-out:
the fields read in lines 236-248 together with
`coords = get_distance_from_krakow(location)` (list of
`(distance, lat, lon)`).  The listing contributes its `link` to
`current_links` (line 239) even when `coords` is empty. -/
structure Item where
  title : String
  location : String
  price : String
  link : String
  coords : List (ℚ × ℚ × ℚ)
deriving DecidableEq, Repr

/-- A row of `olx_dzialki.xlsx` (`olx.py` lines 314-318 / 378-390);
`priceFirst`/`dateFirst`/`dateLast` are `Option` because the stored cells
and `parse_olx_date` can produce null (`NaN`/`None`) values. -/
structure OlxRec where
  title : String
  location : String
  priceFirst : Option String
  dateFirst : Option String
  dateLast : Option String
  priceLast : String
  distance : ℚ
  active : Bool
  link : String
  lat : ℚ
  lon : ℚ
deriving DecidableEq, Repr

/-- A row of one sheet of `otodom_dzialki.xlsx` (`otodom.py` lines 46-52 and
231-243); prices are `int` (`parse_price`), coordinates are nullable
(`get_distance_to_krakow` can yield `(-1.0, None, None)`). -/
structure OtoRec where
  title : String
  location : String
  priceFirst : Int
  dateFirst : String
  dateLast : String
  priceLast : Int
  distance : ℚ
  active : Bool
  link : String
  lat : Option ℚ
  lon : Option ℚ
deriving DecidableEq, Repr

/-- The de-duplication key of `nieruchomosci_online.py` line 290:
`subset=['Link','Latitude','Longitude']`. -/
def rowKey (r : Rec) : String × ℚ × ℚ := (r.link, r.lat, r.lon)

/-! ### Reconciliation of `nieruchomosci_online.main` (lines 206, 239,
253-273, 279-290) -/

/-- Set `current_links` after the scrape loop: every scraped link, in batch
order (line 239). -/
def currentLinks (batch : List Item) : List String := batch.map (·.link)

/-- Lines 253-259: look the link up in `df_existing` (first matching row,
`iloc[0]`); on a hit take its first-found price/date, otherwise use the
current price and today. -/
def firstFind (prev : List Rec) (today : String) (i : Item) : String × String :=
  match prev.find? (fun r => r.link == i.link) with
  | some r => (r.priceFirst, r.dateFirst)
  | none => (i.price, today)

/-- Lines 261-273: the row appended to `results` for one geocoded
coordinate of a listing. -/
def mkRow (prev : List Rec) (today : String) (i : Item) (c : ℚ × ℚ × ℚ) : Rec :=
  { title := i.title
    location := i.location
    priceFirst := (firstFind prev today i).1
    dateFirst := (firstFind prev today i).2
    dateLast := today
    priceLast := i.price
    distance := c.1
    active := true
    link := i.link
    lat := c.2.1
    lon := c.2.2 }

/-- All rows appended to `results` during the scrape loop, in order
(lines 250-273): one row per coordinate of each listing. -/
def newRows (prev : List Rec) (today : String) (batch : List Item) : List Rec :=
  batch.flatMap (fun i => i.coords.map (mkRow prev today i))

/-- Lines 283-285 applied to one row: rows whose link was not scraped are
set inactive, others are left as they are. -/
def markOne (links : List String) (r : Rec) : Rec :=
  if r.link ∈ links then r else { r with active := false }

/-- Dataframe `df_existing` after the inactive-marking loop (lines 280-285). -/
def markInactive (links : List String) (prev : List Rec) : List Rec :=
  prev.map (markOne links)

/-- Selection `df_existing[df_existing['Active'] == False]` (line 289). -/
def oldInactive (links : List String) (prev : List Rec) : List Rec :=
  (markInactive links prev).filter (fun r => !r.active)

/-- Lines 279-290: the merged output written to Excel —
`concat([existing inactive rows, new rows])` de-duplicated by
`(Link, Latitude, Longitude)`. -/
def reconcile (prev : List Rec) (today : String) (batch : List Item) :
    List Rec :=
  dedupBy rowKey
    (oldInactive (currentLinks batch) prev ++ newRows prev today batch)

/-! ### Geo resolver of `nieruchomosci_online.py` (lines 127-168) -/

/-- Outcome of one `geolocator.geocode` call inside the retry loop:
a geocoded hit, a `None` result, or a raised exception. -/
inductive GeoRes where
  | found (lat lon : ℚ)
  | notFound
  | err
deriving DecidableEq, Repr

/-- Line 129: `location.split("(")[0].strip().lower()`. -/
def extractTown (location : String) : String :=
  lowerStr (trimStr ((splitStr location "(").headD ""))

/-- The gazetteer entries whose town equals `town`
(`TOWN_COORDS[town]`; non-empty iff `town in TOWN_COORDS`). -/
def fileMatches (tc : List (String × ℚ × ℚ)) (town : String) :
    List (String × ℚ × ℚ) :=
  tc.filter (fun e => e.1 == town)

/-- Lines 133-139: the within-range results computed from the gazetteer
(`results` after the first block; empty when the town is absent). -/
def fileResults (geoKm : ℚ → ℚ → ℚ) (tc : List (String × ℚ × ℚ))
    (town : String) : List (ℚ × ℚ × ℚ) :=
  (fileMatches tc town).filterMap (fun e =>
    let d := geoKm e.2.1 e.2.2
    if d ≤ MAX_DISTANCE_KM then some (d, e.2.1, e.2.2) else none)

/-- Lookup `COUNTY_COORDS[county]` (the county is always a key of the table). -/
def countyLookup (c : String) : ℚ × ℚ :=
  match COUNTY_COORDS.find? (fun e => e.1 == c) with
  | some e => (e.2.1, e.2.2)
  | none => (0, 0)

/-- Lines 143-152: the county fast path — the first allowed county that is
a substring of the town decides the call (`some result`, possibly empty on
an out-of-range county); `none` when no county matches. -/
def countyStep (geoKm : ℚ → ℚ → ℚ) (town : String) :
    Option (List (ℚ × ℚ × ℚ)) :=
  match ALLOWED_COUNTIES.find? (fun c => containsSub town c) with
  | some c =>
    let p := countyLookup c
    let d := geoKm p.1 p.2
    if d ≤ MAX_DISTANCE_KM then some [(d, p.1, p.2)] else some []
  | none => none

/-- Line 157: the query string sent to Nominatim. -/
def geopyQuery (town : String) : String :=
  town ++ ", Lesser Poland Voivodeship, Poland"

/-- Lines 155-168: the geopy retry loop.  A hit returns immediately
(its single coordinate when in range, `[]` when too far); a `None` result
or an exception moves to the next attempt; exhausted retries yield `[]`. -/
def geopyLoop (geoKm : ℚ → ℚ → ℚ) (geo : String → Nat → GeoRes)
    (q : String) : Nat → Nat → List (ℚ × ℚ × ℚ)
  | _, 0 => []
  | attempt, n + 1 =>
    match geo q attempt with
    | .found lat lon =>
      let d := geoKm lat lon
      if d ≤ MAX_DISTANCE_KM then [(d, lat, lon)] else []
    | .notFound => geopyLoop geoKm geo q (attempt + 1) n
    | .err => geopyLoop geoKm geo q (attempt + 1) n

/-- Lines 143-168: what `get_distance_from_krakow` does after the gazetteer
block produced no within-range result. -/
def fallbackResolve (geoKm : ℚ → ℚ → ℚ) (geo : String → Nat → GeoRes)
    (town : String) (maxRetries : Nat) : List (ℚ × ℚ × ℚ) :=
  match countyStep geoKm town with
  | some res => res
  | none => geopyLoop geoKm geo (geopyQuery town) 0 maxRetries

/-- Function `nieruchomosci_online.get_distance_from_krakow` (lines 127-168):
gazetteer first (returning only when it produced a within-range result),
then the county fast path, then the geopy retry loop. -/
def get_distance_from_krakow (geoKm : ℚ → ℚ → ℚ)
    (tc : List (String × ℚ × ℚ)) (geo : String → Nat → GeoRes)
    (location : String) (maxRetries : Nat) : List (ℚ × ℚ × ℚ) :=
  let town := extractTown location
  let res := fileResults geoKm tc town
  if res = [] then fallbackResolve geoKm geo town maxRetries else res

/-! ### Geo resolver of `otodom.py` (lines 161-197) -/

/-- The `safe_geocode` retry worker (lines 161-168): a normal return (even
`None`) is returned immediately; a caught exception moves on; exhausted
retries yield `None`.  A place is `some (lat, lon)`, or `none` when it
lacks latitude/longitude attributes. -/
def safeGeocodeAux (geoA : String → Nat → Except Unit (Option (List (Option (ℚ × ℚ)))))
    (loc : String) : Nat → Nat → Option (List (Option (ℚ × ℚ)))
  | _, 0 => none
  | attempt, n + 1 =>
    match geoA loc attempt with
    | .ok v => v
    | .error _ => safeGeocodeAux geoA loc (attempt + 1) n

/-- Function `otodom.safe_geocode` with its default `max_retries = 2`. -/
def safe_geocode (geoA : String → Nat → Except Unit (Option (List (Option (ℚ × ℚ)))))
    (loc : String) (maxRetries : Nat) : Option (List (Option (ℚ × ℚ))) :=
  safeGeocodeAux geoA loc 0 maxRetries

/-- Lines 188-192: the `(round(distance, 2), lat, lon)` triples of the
places that do have coordinates. -/
def otoPlaceResults (geoKm : ℚ → ℚ → ℚ) (places : List (Option (ℚ × ℚ))) :
    List (ℚ × Option ℚ × Option ℚ) :=
  places.filterMap (fun p =>
    p.map (fun q => (geoKm q.1 q.2, some q.1, some q.2)))

/-- Lines 180-183: the geocoding queries, county-qualified first when the
county hint is non-empty and allowed. -/
def otoQueries (town county : String) : List String :=
  (if county ≠ "" ∧ lowerStr county ∈ ALLOWED_COUNTIES
   then [town ++ ", " ++ county ++ " county, Małopolskie, Poland"]
   else [])
  ++ [town ++ ", Małopolskie, Poland"]

/-- Lines 185-197: try each query in turn; a query whose geocode produced a
non-empty place list with at least one usable coordinate decides the call;
otherwise fall through, ending in the `[(-1.0, None, None)]` sentinel. -/
def otoQueryLoop (geoKm : ℚ → ℚ → ℚ)
    (geoA : String → Nat → Except Unit (Option (List (Option (ℚ × ℚ))))) :
    List String → List (ℚ × Option ℚ × Option ℚ)
  | [] => [(-1, none, none)]
  | q :: qs =>
    match safe_geocode geoA q 2 with
    | some places =>
      if places = [] then otoQueryLoop geoKm geoA qs
      else
        let rs := otoPlaceResults geoKm places
        if rs = [] then otoQueryLoop geoKm geoA qs else rs
    | none => otoQueryLoop geoKm geoA qs

/-- Function `otodom.get_distance_to_krakow` (lines 170-197): the gazetteer decides
when the town is present (no distance filter there); otherwise live
geocoding over the query list, with the `[(-1.0, None, None)]` sentinel
when nothing is found. -/
def get_distance_to_krakow (geoKm : ℚ → ℚ → ℚ)
    (tc : List (String × ℚ × ℚ))
    (geoA : String → Nat → Except Unit (Option (List (Option (ℚ × ℚ)))))
    (town county : String) : List (ℚ × Option ℚ × Option ℚ) :=
  let cands := fileMatches tc (lowerStr town)
  if cands = [] then otoQueryLoop geoKm geoA (otoQueries town county)
  else cands.map (fun e => (geoKm e.2.1 e.2.2, some e.2.1, some e.2.2))

/-! ### Merge of `olx.main` (lines 308-318, 399-413) -/

/-- Line 311: `df_existing.drop_duplicates(subset="Link", keep="first")`. -/
def olxLinkDedup (old : List OlxRec) : List OlxRec :=
  dedupBy (fun r => r.link) old

/-- Lines 401-409 applied to one freshly scraped row: the left-merge on
`Link` followed by `fillna` — the stored first-found date/price replace
the current ones only when the stored value is not null. -/
def olxMergeRow (oldD : List OlxRec) (n : OlxRec) : OlxRec :=
  match oldD.find? (fun o => o.link == n.link) with
  | some o =>
    { n with
      dateFirst :=
        match o.dateFirst with
        | some v => some v
        | none => n.dateFirst
      priceFirst :=
        match o.priceFirst with
        | some v => some v
        | none => n.priceFirst }
  | none => n

/-- Lines 399-411: `df_merged` (when `df_existing` is empty the merge is the
identity on the new rows, matching the `df_new.copy()` branch). -/
def olx_merge (old new : List OlxRec) : List OlxRec :=
  new.map (olxMergeRow (olxLinkDedup old))

/-- Line 413: `df_merged["Active"] = df_merged["Link"].apply(check_if_active)`. -/
def olx_set_active (alive : String → Bool) (l : List OlxRec) : List OlxRec :=
  l.map (fun r => { r with active := alive r.link })

/-- The olx run's merged output (lines 399-413): merge with the stored set,
then recompute `Active` from the per-link liveness probe. -/
def olx_update (alive : String → Bool) (old new : List OlxRec) : List OlxRec :=
  olx_set_active alive (olx_merge old new)

/-! ### `olx.check_if_active` (lines 177-186) -/

/-- Function `check_if_active`: HEAD 200 is active; otherwise GET decides; any
raised exception makes the listing count as active. -/
def check_if_active (head get : Except Unit Nat) : Bool :=
  match head with
  | .ok s =>
    if s == 200 then true
    else
      match get with
      | .ok t => t == 200
      | .error _ => true
  | .error _ => true

/-! ### `otodom.update_sheet` (lines 253-295) -/

/-- Lines 264-271 for one scraped offer: refresh the first row matching on
`(Title, Price last updated)`, or append the offer at the end. -/
def applyOffer (today : String) (r : OtoRec) : List OtoRec → List OtoRec
  | [] => [r]
  | o :: os =>
    if o.title == r.title && o.priceLast == r.priceLast
    then { o with dateLast := today, active := true } :: os
    else o :: applyOffer today r os

/-- Function `update_sheet` (lines 253-295): fold the offers into `df_old`, then
recompute `Active` as membership of the link in the scraped batch
(lines 273-275). -/
def update_sheet (today : String) (results : List OtoRec)
    (old : List OtoRec) : List OtoRec :=
  let merged := results.foldl (fun acc r => applyOffer today r acc) old
  let links := results.map (fun r => r.link)
  merged.map (fun o => { o with active := decide (o.link ∈ links) })

/-! ### Gazetteer loaders -/

/-- Function `load_towns` of `olx.py` (lines 134-145) and `nieruchomosci_online.py`
(lines 61-72): split each line on `|`; a 3-field line is parsed with
`float`, and a `float` failure raises out of the whole load (there is no
`try` in these two copies); other field counts are skipped silently. -/
def load_towns (pf : String → Option ℚ) :
    List String → Except Unit (List (String × ℚ × ℚ))
  | [] => .ok []
  | line :: rest =>
    match splitStr (trimStr line) "|" with
    | [t, las, los] =>
      match pf las, pf los with
      | some la, some lo =>
        match load_towns pf rest with
        | .ok m => .ok ((lowerStr t, la, lo) :: m)
        | .error e => .error e
      | _, _ => .error ()
    | _ => load_towns pf rest

/-- Function `load_town_coords` of `otodom.py` (lines 64-83): skip blank and `#`
lines, split on `,`, parse inside `try` — a parse failure only skips the
line (with a printed warning). -/
def load_town_coords (pf : String → Option ℚ) :
    List String → List (String × ℚ × ℚ)
  | [] => []
  | line :: rest =>
    let l := trimStr line
    if isSkipLine l then load_town_coords pf rest
    else
      match splitStr l "," with
      | [t, las, los] =>
        match pf (trimStr las), pf (trimStr los) with
        | some la, some lo =>
          (lowerStr (trimStr t), la, lo) :: load_town_coords pf rest
        | _, _ => load_town_coords pf rest
      | _ => load_town_coords pf rest

/-- Modelled from the spec: "loading completes and returns the entries from
all well-formed lines" — the well-formed entries of an `otodom`-format
gazetteer file (non-comment line, three `,`-separated fields, both
coordinates parseable). -/
def wellFormedEntries (pf : String → Option ℚ) (lines : List String) :
    List (String × ℚ × ℚ) :=
  lines.filterMap (fun line =>
    let l := trimStr line
    if isSkipLine l then none
    else
      match splitStr l "," with
      | [t, las, los] =>
        match pf (trimStr las), pf (trimStr los) with
        | some la, some lo => some (lowerStr (trimStr t), la, lo)
        | _, _ => none
      | _ => none)

/-- Modelled from the spec: the well-formed entries of an `olx`-format
(`|`-separated) gazetteer file. -/
def wellFormedEntriesPipe (pf : String → Option ℚ) (lines : List String) :
    List (String × ℚ × ℚ) :=
  lines.filterMap (fun line =>
    match splitStr (trimStr line) "|" with
    | [t, las, los] =>
      match pf las, pf los with
      | some la, some lo => some (lowerStr t, la, lo)
      | _, _ => none
    | _ => none)

/-- A 3-field `|`-line either parses both coordinates or is not 3-field;
used as the (decidable) hypothesis under which `load_towns` cannot raise. -/
def lineParses (pf : String → Option ℚ) (line : String) : Bool :=
  match splitStr (trimStr line) "|" with
  | [_, las, los] => (pf las).isSome && (pf los).isSome
  | _ => true

/-! ### Concrete instances used in witnesses and counterexamples -/

/-- A stored row with link `L1`, used as the previously persisted record in
several concrete scenarios. -/
def recL1 : Rec :=
  { title := "t0"
    location := "l0"
    priceFirst := "100"
    dateFirst := "2024-01-01"
    dateLast := "2024-01-01"
    priceLast := "100"
    distance := 5
    active := true
    link := "L1"
    lat := 1
    lon := 2 }

/-- A freshly scraped listing with link `L1`, geocoded to the stored
coordinate. -/
def itemL1 : Item :=
  { title := "t1", location := "l1", price := "120", link := "L1", coords := [(5, 1, 2)] }

/-- A scraped listing whose link `L1` was found but whose geocoding produced
no coordinates (`get_distance_from_krakow` returned `[]`). -/
def itemL1NoCoords : Item :=
  { title := "t1", location := "l1", price := "120", link := "L1", coords := [] }

/-- Batch item `A` for permutation scenarios. -/
def itemA : Item :=
  { title := "a", location := "l", price := "1", link := "A", coords := [(1, 1, 1)] }

/-- Batch item `B` for permutation scenarios. -/
def itemB : Item :=
  { title := "b", location := "l", price := "2", link := "B", coords := [(2, 2, 2)] }

/-- First of two batch items sharing link `L` and coordinate `(1,1,1)` but
with different titles (the same ad captured twice during one scrape). -/
def itemDupA : Item :=
  { title := "A", location := "l", price := "1", link := "L", coords := [(1, 1, 1)] }

/-- Second of the two duplicate-key batch items (title differs). -/
def itemDupB : Item :=
  { title := "B", location := "l", price := "1", link := "L", coords := [(1, 1, 1)] }

/-- First of two batch items sharing link `L` with different prices and
distinct coordinates. -/
def itemPx1 : Item :=
  { title := "t", location := "l", price := "100", link := "L", coords := [(1, 10, 10)] }

/-- Second same-link batch item with a different price. -/
def itemPx2 : Item :=
  { title := "t", location := "l", price := "200", link := "L", coords := [(2, 20, 20)] }

/-- A stored olx row for link `L1` whose first-found fields are null
(`parse_olx_date` returned `None` / the cell was `NaN`). -/
def olxOldNull : OlxRec :=
  { title := "t"
    location := "l"
    priceFirst := none
    dateFirst := none
    dateLast := none
    priceLast := "90"
    distance := 3
    active := true
    link := "L1"
    lat := 1
    lon := 2 }

/-- A stored olx row for link `L1` with non-null first-found fields. -/
def olxOldFull : OlxRec :=
  { title := "t"
    location := "l"
    priceFirst := some "90"
    dateFirst := some "2024-01-01"
    dateLast := some "2024-01-01"
    priceLast := "90"
    distance := 3
    active := true
    link := "L1"
    lat := 1
    lon := 2 }

/-- A freshly scraped olx row for link `L1` (current-batch values). -/
def olxNew : OlxRec :=
  { title := "t"
    location := "l"
    priceFirst := some "120"
    dateFirst := some "2025-10-12"
    dateLast := some "2025-10-12"
    priceLast := "120"
    distance := 3
    active := true
    link := "L1"
    lat := 1
    lon := 2 }

/-- The single output row of the olx merge of `olxOldFull` with `olxNew`
under an all-alive probe. -/
def olxOutFull : OlxRec :=
  (olx_update (fun _ => true) [olxOldFull] [olxNew]).headD olxNew

/-- A scraped otodom offer with link `U1`. -/
def otoOffer : OtoRec :=
  { title := "t"
    location := "l"
    priceFirst := 100
    dateFirst := "d0"
    dateLast := "d0"
    priceLast := 100
    distance := 5
    active := true
    link := "U1"
    lat := some 1
    lon := some 2 }

/-- The first output row of `update_sheet "d1" [otoOffer] []`. -/
def otoOut : OtoRec :=
  (update_sheet "d1" [otoOffer] []).headD otoOffer

/-- A `float` oracle that fails exactly on the string `"x"`. -/
def pfX : String → Option ℚ := fun s => if s = "x" then none else some 1

/-- A distance oracle making the gazetteer coordinate `(52, 25)` too far
(100 km) and everything else near (10 km). -/
def geoKmFar : ℚ → ℚ → ℚ := fun la _ => if la = 52 then 100 else 10

/-- A geocoder oracle that finds `(7, 8)` on the first attempt. -/
def geoHit : String → Nat → GeoRes := fun _ n => if n = 0 then .found 7 8 else .notFound

/-! ## Lemmas about keep-first de-duplication -/

theorem mem_of_mem_dedupByAux {α κ : Type} [DecidableEq κ] {k : α → κ}
    {seen : List κ} {l : List α} {x : α} (h : x ∈ dedupByAux k seen l) :
    x ∈ l := by
  induction l generalizing seen with
  | nil => simp [dedupByAux] at h
  | cons a as ih =>
    simp only [dedupByAux] at h
    split at h
    · exact List.mem_cons_of_mem _ (ih h)
    · rcases List.mem_cons.mp h with h | h
      · exact h ▸ List.mem_cons_self _ _
      · exact List.mem_cons_of_mem _ (ih h)

theorem dedupByAux_seen_congr {α κ : Type} [DecidableEq κ] {k : α → κ}
    {s₁ s₂ : List κ} (l : List α) (h : ∀ c, c ∈ s₁ ↔ c ∈ s₂) :
    dedupByAux k s₁ l = dedupByAux k s₂ l := by
  induction l generalizing s₁ s₂ with
  | nil => rfl
  | cons a as ih =>
    simp only [dedupByAux]
    by_cases hm : k a ∈ s₁
    · rw [if_pos hm, if_pos ((h _).mp hm)]
      exact ih h
    · rw [if_neg hm, if_neg (fun hc => hm ((h _).mpr hc))]
      exact congrArg (a :: ·) (ih (fun c => by simp only [List.mem_cons, h c]))

theorem map_mem_dedupByAux {α κ : Type} [DecidableEq κ] {k : α → κ}
    {seen : List κ} {l : List α} {c : κ} :
    c ∈ (dedupByAux k seen l).map k ↔ c ∈ l.map k ∧ c ∉ seen := by
  induction l generalizing seen with
  | nil => simp [dedupByAux]
  | cons a as ih =>
    simp only [dedupByAux]
    by_cases hm : k a ∈ seen
    · rw [if_pos hm, ih]
      simp only [List.map_cons, List.mem_cons]
      constructor
      · rintro ⟨h1, h2⟩
        exact ⟨Or.inr h1, h2⟩
      · rintro ⟨h1 | h1, h2⟩
        · exact absurd (h1 ▸ hm) h2
        · exact ⟨h1, h2⟩
    · rw [if_neg hm]
      simp only [List.map_cons, List.mem_cons, ih, List.mem_cons]
      constructor
      · rintro (rfl | ⟨h1, h2⟩)
        · exact ⟨Or.inl rfl, hm⟩
        · exact ⟨Or.inr h1, fun hc => h2 (Or.inr hc)⟩
      · rintro ⟨h1 | h1, h2⟩
        · exact Or.inl h1
        · by_cases hca : c = k a
          · exact Or.inl hca
          · refine Or.inr ⟨h1, fun hc => ?_⟩
            rcases hc with hc | hc
            · exact hca hc
            · exact h2 hc

theorem dedupByAux_append {α κ : Type} [DecidableEq κ] (k : α → κ)
    (seen : List κ) (p l : List α) :
    dedupByAux k seen (p ++ l) =
      dedupByAux k seen p ++ dedupByAux k (p.map k ++ seen) l := by
  induction p generalizing seen with
  | nil => simp [dedupByAux]
  | cons a as ih =>
    simp only [List.cons_append, dedupByAux, List.map_cons, List.append_eq]
    by_cases hm : k a ∈ seen
    · rw [if_pos hm, if_pos hm, ih]
      refine congrArg (dedupByAux k seen as ++ ·) ?_
      refine dedupByAux_seen_congr _ (fun c => ?_)
      simp only [List.mem_append, List.cons_append, List.mem_cons]
      constructor
      · intro hc
        tauto
      · rintro (rfl | hc)
        · exact Or.inr hm
        · tauto
    · rw [if_neg hm, if_neg hm, ih]
      simp only [List.cons_append]
      refine congrArg (a :: ·) (congrArg (dedupByAux k (k a :: seen) as ++ ·) ?_)
      refine dedupByAux_seen_congr _ (fun c => ?_)
      simp only [List.mem_append, List.mem_cons]
      tauto

theorem pairwise_dedupByAux {α κ : Type} [DecidableEq κ] (k : α → κ)
    (seen : List κ) (l : List α) :
    (dedupByAux k seen l).Pairwise (fun a b => k a ≠ k b) := by
  induction l generalizing seen with
  | nil => exact List.Pairwise.nil
  | cons a as ih =>
    simp only [dedupByAux]
    split
    · exact ih _
    · refine List.Pairwise.cons (fun b hb => ?_) (ih _)
      have hmem := (map_mem_dedupByAux (c := k b)).mp (List.mem_map_of_mem k hb)
      intro he
      exact hmem.2 (he ▸ List.mem_cons_self _ _)

theorem dedupByAux_eq_filter {α κ : Type} [DecidableEq κ] {k : α → κ}
    {l : List α} (hp : l.Pairwise (fun a b => k a ≠ k b)) (seen : List κ) :
    dedupByAux k seen l = l.filter (fun x => decide (k x ∉ seen)) := by
  induction l generalizing seen with
  | nil => rfl
  | cons a as ih =>
    rcases List.pairwise_cons.mp hp with ⟨ha, has⟩
    simp only [dedupByAux, List.filter_cons]
    by_cases hm : k a ∈ seen
    · rw [if_pos hm]
      have hd : decide (k a ∉ seen) = false := by simpa using hm
      rw [hd]
      simp only [Bool.false_eq_true, if_false]
      exact ih has seen
    · rw [if_neg hm]
      have hd : decide (k a ∉ seen) = true := by simpa using hm
      rw [hd]
      simp only [if_true]
      refine congrArg (a :: ·) ?_
      rw [ih has (k a :: seen)]
      refine List.filter_congr (fun x hx => ?_)
      have hne : k x ≠ k a := fun he => (ha x hx) he.symm
      simp only [decide_eq_decide, List.mem_cons]
      tauto

theorem dedupBy_eq_self {α κ : Type} [DecidableEq κ] {k : α → κ} {l : List α}
    (hp : l.Pairwise (fun a b => k a ≠ k b)) : dedupBy k l = l := by
  rw [dedupBy, dedupByAux_eq_filter hp]
  exact List.filter_eq_self.mpr (fun a _ => by simp)

theorem dedupBy_append {α κ : Type} [DecidableEq κ] (k : α → κ) (p l : List α) :
    dedupBy k (p ++ l) = dedupBy k p ++ dedupByAux k (p.map k) l := by
  rw [dedupBy, dedupByAux_append, dedupBy, List.append_nil]

theorem mem_of_mem_dedupBy {α κ : Type} [DecidableEq κ] {k : α → κ}
    {l : List α} {x : α} (h : x ∈ dedupBy k l) : x ∈ l :=
  mem_of_mem_dedupByAux h

theorem pairwise_dedupBy {α κ : Type} [DecidableEq κ] (k : α → κ) (l : List α) :
    (dedupBy k l).Pairwise (fun a b => k a ≠ k b) :=
  pairwise_dedupByAux k [] l

theorem map_mem_dedupBy {α κ : Type} [DecidableEq κ] {k : α → κ}
    {l : List α} {c : κ} : c ∈ (dedupBy k l).map k ↔ c ∈ l.map k := by
  rw [dedupBy, map_mem_dedupByAux]
  simp

theorem dedupBy_idem_append {α κ : Type} [DecidableEq κ] (k : α → κ)
    (p l : List α) :
    dedupBy k (dedupBy k p ++ l) = dedupBy k (p ++ l) := by
  rw [dedupBy_append, dedupBy_append, dedupBy_eq_self (pairwise_dedupBy k p)]
  refine congrArg (dedupBy k p ++ ·) ?_
  exact dedupByAux_seen_congr _ (fun c => map_mem_dedupBy)

/-! ## Basic facts about the nieruchomosci reconciliation -/

theorem markOne_link (links : List String) (r : Rec) :
    (markOne links r).link = r.link := by
  rw [markOne]; split <;> rfl

theorem markOne_priceFirst (links : List String) (r : Rec) :
    (markOne links r).priceFirst = r.priceFirst := by
  rw [markOne]; split <;> rfl

theorem markOne_dateFirst (links : List String) (r : Rec) :
    (markOne links r).dateFirst = r.dateFirst := by
  rw [markOne]; split <;> rfl

theorem markOne_rowKey (links : List String) (r : Rec) :
    rowKey (markOne links r) = rowKey r := by
  rw [markOne]; split <;> rfl

theorem setInactive_eq_self {r : Rec} (h : r.active = false) :
    ({ r with active := false } : Rec) = r := by
  cases r
  simp_all

theorem markOne_eq_self_of_inactive (links : List String) {r : Rec}
    (h : r.active = false) : markOne links r = r := by
  rw [markOne]
  split
  · rfl
  · exact setInactive_eq_self h

theorem mem_newRows {prev : List Rec} {today : String} {batch : List Item}
    {r : Rec} :
    r ∈ newRows prev today batch ↔
      ∃ i ∈ batch, ∃ c ∈ i.coords, r = mkRow prev today i c := by
  rw [newRows, List.mem_flatMap]
  constructor
  · rintro ⟨i, hi, hr⟩
    rcases List.mem_map.mp hr with ⟨c, hc, rfl⟩
    exact ⟨i, hi, c, hc, rfl⟩
  · rintro ⟨i, hi, c, hc, rfl⟩
    exact ⟨i, hi, List.mem_map_of_mem _ hc⟩

theorem newRows_active {prev : List Rec} {today : String} {batch : List Item}
    {r : Rec} (h : r ∈ newRows prev today batch) : r.active = true := by
  rcases mem_newRows.mp h with ⟨i, _, c, _, rfl⟩
  rfl

theorem newRows_link_mem {prev : List Rec} {today : String}
    {batch : List Item} {r : Rec} (h : r ∈ newRows prev today batch) :
    r.link ∈ currentLinks batch := by
  rcases mem_newRows.mp h with ⟨i, hi, c, _, rfl⟩
  exact List.mem_map_of_mem (fun x => x.link) hi

theorem mem_oldInactive {links : List String} {prev : List Rec} {r : Rec} :
    r ∈ oldInactive links prev ↔
      (∃ p ∈ prev, markOne links p = r) ∧ r.active = false := by
  rw [oldInactive, List.mem_filter, markInactive, List.mem_map]
  simp [Bool.not_eq_true']

theorem mem_reconcile_cases {prev : List Rec} {today : String}
    {batch : List Item} {r : Rec} (h : r ∈ reconcile prev today batch) :
    r ∈ oldInactive (currentLinks batch) prev ∨ r ∈ newRows prev today batch :=
  List.mem_append.mp (mem_of_mem_dedupBy h)

theorem oldInactive_pairwise {links : List String} {prev : List Rec}
    (hp : prev.Pairwise (fun r s => rowKey r ≠ rowKey s)) :
    (oldInactive links prev).Pairwise (fun r s => rowKey r ≠ rowKey s) := by
  refine List.Pairwise.filter _ ?_
  rw [markInactive, List.pairwise_map]
  refine hp.imp ?_
  intro a b hab
  rw [markOne_rowKey, markOne_rowKey]
  exact hab

/-! ## Claim C3 -/

/--
C3 (corrected): every previously persisted record whose link does not appear
in the current scrape batch is retained in the merged output with `active`
set to false and every other field unchanged — assuming the persisted set
has pairwise-distinct `(link, lat, lon)` keys, which every output of a
previous run has (claim C7).  The second half of the original claim, "no
record is ever deleted", is refuted by `claim_C3_cex`.
-/
theorem claim_C3 (prev : List Rec) (today : String) (batch : List Item)
    (hkeys : prev.Pairwise (fun r s => rowKey r ≠ rowKey s))
    (r : Rec) (hr : r ∈ prev) (habs : r.link ∉ currentLinks batch) :
    ({ r with active := false } : Rec) ∈ reconcile prev today batch := by
  have hmark : markOne (currentLinks batch) r = { r with active := false } := by
    rw [markOne, if_neg habs]
  have hmem : ({ r with active := false } : Rec) ∈
      oldInactive (currentLinks batch) prev :=
    mem_oldInactive.mpr ⟨⟨r, hr, hmark⟩, rfl⟩
  rw [reconcile, dedupBy_append, dedupBy_eq_self (oldInactive_pairwise hkeys)]
  exact List.mem_append_left _ hmem

/--
C3 witness: a stored record with link `L1`, absent from an empty batch, is
retained inactive.
-/
theorem claim_C3_witness :
    ({ recL1 with active := false } : Rec) ∈ reconcile [recL1] "2025-10-12" [] :=
  claim_C3 [recL1] "2025-10-12" [] (by decide) recL1 (by decide) (by decide)

/--
C3 counterexample: the merged output of `nieruchomosci_online.main` can
delete a previously persisted record.  Here the stored active record with
link `L1` is matched by a batch listing with the same link (so it is not
marked inactive, lines 279-285) whose geocoding produced no coordinates (so
no replacement row is appended, lines 248-273): the merged output is empty —
contradicting "no record is ever deleted".
-/
theorem claim_C3_cex :
    reconcile [recL1] "2025-10-12" [itemL1NoCoords] = [] ∧ recL1.active = true := by
  decide

/-! ## Claim C5 -/

/--
C5 (corrected): reconciliation is order-independent only up to output order
and only when the rows generated from the current batch carry pairwise
distinct `(link, lat, lon)` keys; under that hypothesis a permutation of
the batch yields the same merged records as a set (a permutation of the
output).  Without the hypothesis the keep-first de-duplication makes the
output depend on batch order (`claim_C5_cex`).
-/
theorem claim_C5 (prev : List Rec) (today : String) (b₁ b₂ : List Item)
    (hperm : List.Perm b₁ b₂)
    (hkeys : (newRows prev today b₁).Pairwise (fun r s => rowKey r ≠ rowKey s)) :
    List.Perm (reconcile prev today b₁) (reconcile prev today b₂) := by
  have hlinks : ∀ s, s ∈ currentLinks b₁ ↔ s ∈ currentLinks b₂ :=
    fun s => (hperm.map (fun i => i.link)).mem_iff
  have hoi : oldInactive (currentLinks b₂) prev
      = oldInactive (currentLinks b₁) prev := by
    rw [oldInactive, oldInactive, markInactive, markInactive]
    refine congrArg (List.filter _) ?_
    refine List.map_congr_left (fun r _ => ?_)
    rw [markOne, markOne]
    by_cases h : r.link ∈ currentLinks b₁
    · rw [if_pos h, if_pos ((hlinks _).mp h)]
    · rw [if_neg ((fun hc => h ((hlinks _).mpr hc)) : r.link ∉ currentLinks b₂),
        if_neg h]
  have hrows : List.Perm (newRows prev today b₁) (newRows prev today b₂) :=
    hperm.flatMap_right _
  have hkeys₂ : (newRows prev today b₂).Pairwise
      (fun r s => rowKey r ≠ rowKey s) :=
    (hrows.pairwise_iff (fun hab he => hab he.symm)).mp hkeys
  rw [reconcile, reconcile, hoi, dedupBy_append, dedupBy_append,
    dedupByAux_eq_filter hkeys, dedupByAux_eq_filter hkeys₂]
  exact (hrows.filter _).append_left _

/--
C5 witness: permuting a two-element batch with distinct links yields the
same merged set up to order.
-/
theorem claim_C5_witness :
    List.Perm (reconcile [] "d" [itemA, itemB]) (reconcile [] "d" [itemB, itemA]) :=
  claim_C5 [] "d" [itemA, itemB] [itemB, itemA] (by decide) (by decide)

/--
C5 counterexample: with two batch entries sharing link `L` and coordinate
`(1, 1)` but different titles, the keep-first de-duplication keeps whichever
came first, so the two batch orders produce different merged sets (not even
equal as sets): the original claim's unconditional order-independence fails.
-/
theorem claim_C5_cex :
    List.Perm [itemDupA, itemDupB] [itemDupB, itemDupA] ∧
      ¬ List.Perm (reconcile [] "d" [itemDupA, itemDupB])
          (reconcile [] "d" [itemDupB, itemDupA]) := by
  decide

/-! ## Claim C7 -/

/--
C7 (corrected, nieruchomosci part): the merged set of the
`nieruchomosci_online` reconciliation consists solely of retained inactive
records and updated current-batch rows, and after the final
`drop_duplicates(subset=['Link','Latitude','Longitude'])` no two output
records share all of link, latitude and longitude.  The olx merge has no
such de-duplication (`claim_C7_cex`).
-/
theorem claim_C7 (prev : List Rec) (today : String) (batch : List Item) :
    (reconcile prev today batch).Pairwise (fun r s => rowKey r ≠ rowKey s) ∧
      ∀ r ∈ reconcile prev today batch,
        r ∈ oldInactive (currentLinks batch) prev ∨
          r ∈ newRows prev today batch :=
  ⟨pairwise_dedupBy rowKey _, fun _ hr => mem_reconcile_cases hr⟩

/--
C7 witness: the key-uniqueness and union facts instantiated on a concrete
run.
-/
theorem claim_C7_witness :
    (reconcile [recL1] "d" [itemA]).Pairwise (fun r s => rowKey r ≠ rowKey s) ∧
      (mkRow [recL1] "d" itemA (1, 1, 1) ∈
          oldInactive (currentLinks [itemA]) [recL1] ∨
        mkRow [recL1] "d" itemA (1, 1, 1) ∈ newRows [recL1] "d" [itemA]) :=
  ⟨(claim_C7 [recL1] "d" [itemA]).1,
    (claim_C7 [recL1] "d" [itemA]).2 _ (by decide)⟩

/--
C7 counterexample: the olx merge (`olx.py` lines 399-413) never
de-duplicates its output, so the same scraped row captured twice yields two
output records sharing link, latitude and longitude — refuting the claim
that no two records of every reconciliation run's output share the triple.
-/
theorem claim_C7_cex :
    ¬ (olx_update (fun _ => true) [] [olxNew, olxNew]).Pairwise
        (fun r s => (r.link, r.lat, r.lon) ≠ (s.link, s.lat, s.lon)) := by
  decide

/-! ## Claim C1 -/

/--
C1 (corrected): for a link shared between the persisted set and the current
batch, the merged output's first-found price and date equal those of the
(first) matching persisted record — unconditionally in
`nieruchomosci_online.main` (first conjunct), and in `olx.main` only when
the stored value is non-null: the `fillna` merge substitutes the current
batch's value for a null stored value (second conjunct, hypotheses
`≠ none`; `claim_C1_cex` shows the null case).
-/
theorem claim_C1 :
    (∀ (prev : List Rec) (today : String) (batch : List Item) (r p : Rec),
      r ∈ reconcile prev today batch → r.active = true →
      prev.find? (fun q => q.link == r.link) = some p →
      r.priceFirst = p.priceFirst ∧ r.dateFirst = p.dateFirst) ∧
    (∀ (alive : String → Bool) (old new : List OlxRec) (r o : OlxRec),
      r ∈ olx_update alive old new →
      (olxLinkDedup old).find? (fun q => q.link == r.link) = some o →
      (o.priceFirst ≠ none → r.priceFirst = o.priceFirst) ∧
      (o.dateFirst ≠ none → r.dateFirst = o.dateFirst)) := by
  constructor
  · intro prev today batch r p hr hact hfind
    rcases mem_reconcile_cases hr with hoi | hrows
    · rw [(mem_oldInactive.mp hoi).2] at hact
      exact absurd hact (by simp)
    · rcases mem_newRows.mp hrows with ⟨i, hi, c, hc, rfl⟩
      have hl : (mkRow prev today i c).link = i.link := rfl
      rw [hl] at hfind
      have hff : firstFind prev today i = (p.priceFirst, p.dateFirst) := by
        rw [firstFind, hfind]
      constructor
      · show (firstFind prev today i).1 = p.priceFirst
        rw [hff]
      · show (firstFind prev today i).2 = p.dateFirst
        rw [hff]
  · intro alive old new r o hr hfind
    rw [olx_update, olx_set_active, List.mem_map] at hr
    rcases hr with ⟨m, hm, rfl⟩
    rw [olx_merge, List.mem_map] at hm
    rcases hm with ⟨n, hn, rfl⟩
    have hlink : (olxMergeRow (olxLinkDedup old) n).link = n.link := by
      rw [olxMergeRow]; split <;> rfl
    have hfind' : (olxLinkDedup old).find?
        (fun q => q.link == (olxMergeRow (olxLinkDedup old) n).link) = some o :=
      hfind
    rw [hlink] at hfind'
    have hrow : olxMergeRow (olxLinkDedup old) n =
        { n with
          dateFirst :=
            match o.dateFirst with
            | some v => some v
            | none => n.dateFirst
          priceFirst :=
            match o.priceFirst with
            | some v => some v
            | none => n.priceFirst } := by
      rw [olxMergeRow, hfind']
    constructor
    · intro hpf
      show (olxMergeRow (olxLinkDedup old) n).priceFirst = o.priceFirst
      rw [hrow]
      rcases hox : o.priceFirst with _ | v
      · exact absurd hox hpf
      · rfl
    · intro hdf
      show (olxMergeRow (olxLinkDedup old) n).dateFirst = o.dateFirst
      rw [hrow]
      rcases hox : o.dateFirst with _ | v
      · exact absurd hox hdf
      · rfl

/--
C1 witness: both conjuncts instantiated — the nieruchomosci row generated
for link `L1` keeps the stored first-found fields, and the olx merge keeps
the stored non-null first-found fields.
-/
theorem claim_C1_witness :
    ((mkRow [recL1] "2025-10-12" itemL1 (5, 1, 2)).priceFirst = recL1.priceFirst ∧
      (mkRow [recL1] "2025-10-12" itemL1 (5, 1, 2)).dateFirst = recL1.dateFirst) ∧
    ((olxOldFull.priceFirst ≠ none → olxOutFull.priceFirst = olxOldFull.priceFirst) ∧
      (olxOldFull.dateFirst ≠ none → olxOutFull.dateFirst = olxOldFull.dateFirst)) :=
  ⟨claim_C1.1 [recL1] "2025-10-12" [itemL1] _ recL1 (by decide) (by decide) (by decide),
    claim_C1.2 (fun _ => true) [olxOldFull] [olxNew] olxOutFull olxOldFull
      (by decide) (by decide)⟩

/--
C1 counterexample: in the olx merge, a persisted record with link `L1`
whose stored `Date first found` is null is matched by a current-batch row
with the same link, and the merged output's `Date first found` is the
current batch's value `2025-10-12` — not the persisted record's value,
refuting "never the current batch's values / never change after the first
appearance".
-/
theorem claim_C1_cex :
    (olx_update (fun _ => true) [olxOldNull] [olxNew]).map (fun r => r.dateFirst)
        = [some "2025-10-12"] ∧
      olxOldNull.dateFirst = none ∧
      olxNew.dateFirst = some "2025-10-12" ∧
      olxOldNull.link = olxNew.link := by
  decide

/-! ## Claim C8 -/

/--
C8 (corrected): in `otodom.update_sheet` the `Active` flag of every output
record is recomputed purely from batch membership (this theorem).  The olx
run instead derives `Active` from a per-link HTTP liveness probe, so a
record whose link is in the current batch can come out inactive
(`claim_C8_cex`).
-/
theorem claim_C8 (today : String) (results old : List OtoRec) (r : OtoRec)
    (hr : r ∈ update_sheet today results old) :
    r.active = true ↔ r.link ∈ results.map (fun x => x.link) := by
  rw [update_sheet, List.mem_map] at hr
  rcases hr with ⟨o, ho, rfl⟩
  show decide (o.link ∈ results.map (fun x => x.link)) = true ↔
    o.link ∈ results.map (fun x => x.link)
  exact ⟨of_decide_eq_true, decide_eq_true⟩

/--
C8 witness: the freshly appended otodom offer comes out active precisely
because its link is in the batch.
-/
theorem claim_C8_witness :
    otoOut.active = true ↔ otoOut.link ∈ [otoOffer].map (fun x => x.link) :=
  claim_C8 "d1" [otoOffer] [] otoOut (by decide)

/--
C8 counterexample: in the olx run (`olx.py` line 413) `Active` comes from
`check_if_active`, not from batch membership: with a probe that reports the
listing dead, the output record for link `L1` — a link present in the
current batch — carries `active = false`, refuting the claim's "true if and
only if the record's link appears in the current scrape batch".
-/
theorem claim_C8_cex :
    (olx_update (fun _ => false) [] [olxNew]).map (fun r => (r.link, r.active))
        = [("L1", false)] ∧
      "L1" ∈ [olxNew].map (fun i => i.link) := by
  decide

/-! ## Claim C10 -/

/--
C10 (confirmed): whenever the liveness check of a listing URL raises — on
the HEAD request, or on the GET request issued after a non-200 HEAD —
`check_if_active` returns `true`, reporting an unreachable listing as
active.
-/
theorem claim_C10 :
    (∀ g : Except Unit Nat, check_if_active (Except.error ()) g = true) ∧
      (∀ s : Nat, s ≠ 200 → check_if_active (Except.ok s) (Except.error ()) = true) := by
  constructor
  · intro g
    rfl
  · intro s hs
    have hbeq : (s == 200) = false := by simpa using hs
    rw [check_if_active]
    rw [if_neg (by simp [hbeq])]

/--
C10 witness: a raising HEAD, and a 404 HEAD followed by a raising GET, both
yield `true`.
-/
theorem claim_C10_witness :
    check_if_active (Except.error ()) (Except.ok 200) = true ∧
      check_if_active (Except.ok 404) (Except.error ()) = true :=
  ⟨claim_C10.1 (Except.ok 200), claim_C10.2 404 (by decide)⟩

/-! ## Claim C2 -/

/--
C2 (corrected): when the town is in the gazetteer but every one of its
coordinates exceeds the maximum distance, the gazetteer block of
`get_distance_from_krakow` produces no result — and the resolver FALLS
THROUGH to the county allow-list and the geopy retry loop (it equals the
fallback chain), rather than returning empty as the original claim states;
`claim_C2_cex` exhibits a run where the fall-through returns a non-empty
geopy result.
-/
theorem claim_C2 (geoKm : ℚ → ℚ → ℚ) (tc : List (String × ℚ × ℚ))
    (geo : String → Nat → GeoRes) (location : String) (maxRetries : Nat)
    (_htown : fileMatches tc (extractTown location) ≠ [])
    (hfar : ∀ e ∈ tc, e.1 = extractTown location →
      ¬ (geoKm e.2.1 e.2.2 ≤ MAX_DISTANCE_KM)) :
    get_distance_from_krakow geoKm tc geo location maxRetries =
      fallbackResolve geoKm geo (extractTown location) maxRetries := by
  have hempty : fileResults geoKm tc (extractTown location) = [] := by
    rw [fileResults, List.filterMap_eq_nil_iff]
    intro e he
    have h1 : e ∈ tc := (List.mem_filter.mp he).1
    have h2 : e.1 = extractTown location := beq_iff_eq.mp (List.mem_filter.mp he).2
    exact if_neg (hfar e h1 h2)
  show (if fileResults geoKm tc (extractTown location) = []
      then fallbackResolve geoKm geo (extractTown location) maxRetries
      else fileResults geoKm tc (extractTown location)) = _
  rw [hempty, if_pos rfl]

/--
C2 witness: the fall-through equation instantiated on a gazetteer whose
only entry for the town is 100 km away.
-/
theorem claim_C2_witness :
    get_distance_from_krakow geoKmFar [("farton", 52, 25)] geoHit "Farton" 3 =
      fallbackResolve geoKmFar geoHit (extractTown "Farton") 3 :=
  claim_C2 geoKmFar [("farton", 52, 25)] geoHit "Farton" 3 (by decide) (by decide)

/--
C2 counterexample: the town `farton` is in the gazetteer, its only
coordinate is 100 km away (beyond the 50 km maximum), yet the resolver
returns the non-empty geopy fallback result `[(10, 7, 8)]` — refuting
"returns an empty list and never proceeds to the county allow-list or the
external geocoding fallback".
-/
theorem claim_C2_cex :
    fileMatches [("farton", 52, 25)] (extractTown "Farton") ≠ [] ∧
      (∀ e ∈ ([("farton", 52, 25)] : List (String × ℚ × ℚ)),
        ¬ (geoKmFar e.2.1 e.2.2 ≤ MAX_DISTANCE_KM)) ∧
      get_distance_from_krakow geoKmFar [("farton", 52, 25)] geoHit "Farton" 3 =
        [(10, 7, 8)] := by
  decide

/-! ## Claim C4 -/

theorem geopyLoop_far (geoKm : ℚ → ℚ → ℚ) (geo : String → Nat → GeoRes)
    (q : String)
    (hgeo : ∀ n lat lon, geo q n = GeoRes.found lat lon →
      ¬ (geoKm lat lon ≤ MAX_DISTANCE_KM)) :
    ∀ start n, geopyLoop geoKm geo q start n = [] := by
  intro start n
  induction n generalizing start with
  | zero => rfl
  | succ m ih =>
    rw [geopyLoop]
    cases hg : geo q start with
    | found lat lon => exact if_neg (hgeo start lat lon hg)
    | notFound => exact ih (start + 1)
    | err => exact ih (start + 1)

theorem safeGeocodeAux_err
    (geoA : String → Nat → Except Unit (Option (List (Option (ℚ × ℚ)))))
    (loc : String) (herr : ∀ q n, geoA q n = .error ()) :
    ∀ start n, safeGeocodeAux geoA loc start n = none := by
  intro start n
  induction n generalizing start with
  | zero => rfl
  | succ m ih =>
    rw [safeGeocodeAux, herr loc start]
    exact ih (start + 1)

theorem otoQueryLoop_err (geoKm : ℚ → ℚ → ℚ)
    (geoA : String → Nat → Except Unit (Option (List (Option (ℚ × ℚ)))))
    (herr : ∀ q n, geoA q n = .error ()) :
    ∀ qs, otoQueryLoop geoKm geoA qs = [(-1, none, none)] := by
  intro qs
  induction qs with
  | nil => rfl
  | cons q qs ih =>
    rw [otoQueryLoop, safe_geocode, safeGeocodeAux_err geoA q herr 0 2]
    exact ih

/--
C4 (corrected): when the town is absent from the gazetteer and the county
table and no geocoding attempt yields a usable (within-range) result, the
`nieruchomosci_online` resolver does return `[]` (first conjunct, as the
claim states) — but the cited `otodom.get_distance_to_krakow` does NOT: it
returns the sentinel `[(-1.0, None, None)]` (second conjunct), refuting
"the resolver returns an empty list" for that script (`claim_C4_cex`).
Neither resolver raises: both are total functions of the modelled attempt
outcomes.
-/
theorem claim_C4 :
    (∀ (geoKm : ℚ → ℚ → ℚ) (tc : List (String × ℚ × ℚ))
      (geo : String → Nat → GeoRes) (location : String) (maxRetries : Nat),
      fileMatches tc (extractTown location) = [] →
      ALLOWED_COUNTIES.find? (fun c => containsSub (extractTown location) c) = none →
      (∀ n lat lon, geo (geopyQuery (extractTown location)) n = GeoRes.found lat lon →
        ¬ (geoKm lat lon ≤ MAX_DISTANCE_KM)) →
      get_distance_from_krakow geoKm tc geo location maxRetries = []) ∧
    (∀ (geoKm : ℚ → ℚ → ℚ) (tc : List (String × ℚ × ℚ))
      (geoA : String → Nat → Except Unit (Option (List (Option (ℚ × ℚ)))))
      (town county : String),
      fileMatches tc (lowerStr town) = [] →
      (∀ q n, geoA q n = .error ()) →
      get_distance_to_krakow geoKm tc geoA town county = [(-1, none, none)]) := by
  constructor
  · intro geoKm tc geo location maxRetries hfile hcounty hgeo
    have hres : fileResults geoKm tc (extractTown location) = [] := by
      rw [fileResults, hfile]
      rfl
    show (if fileResults geoKm tc (extractTown location) = []
        then fallbackResolve geoKm geo (extractTown location) maxRetries
        else fileResults geoKm tc (extractTown location)) = []
    rw [hres, if_pos rfl, fallbackResolve, countyStep, hcounty]
    exact geopyLoop_far geoKm geo _ hgeo 0 maxRetries
  · intro geoKm tc geoA town county hfile herr
    show (if fileMatches tc (lowerStr town) = []
        then otoQueryLoop geoKm geoA (otoQueries town county)
        else (fileMatches tc (lowerStr town)).map
          (fun e => (geoKm e.2.1 e.2.2, some e.2.1, some e.2.2))) = _
    rw [hfile, if_pos rfl]
    exact otoQueryLoop_err geoKm geoA herr _

/--
C4 witness: both conjuncts instantiated — with an empty gazetteer, a town
matching no county and always-failing geocoding, the nieruchomosci resolver
returns `[]` and the otodom resolver returns the sentinel.
-/
theorem claim_C4_witness :
    get_distance_from_krakow (fun _ _ => 0) [] (fun _ _ => GeoRes.err) "nowhere" 3 = [] ∧
      get_distance_to_krakow (fun _ _ => 0) [] (fun _ _ => .error ()) "nowhere" "" =
        [(-1, none, none)] :=
  ⟨claim_C4.1 (fun _ _ => 0) [] (fun _ _ => GeoRes.err) "nowhere" 3
      (by decide) (by decide) (fun n lat lon h => GeoRes.noConfusion h),
    claim_C4.2 (fun _ _ => 0) [] (fun _ _ => .error ()) "nowhere" ""
      (by decide) (fun _ _ => rfl)⟩

/--
C4 counterexample: `otodom.get_distance_to_krakow` with the town absent
from the gazetteer and every geocoding attempt raising returns the
non-empty sentinel `[(-1.0, None, None)]`, not the empty list the claim
asserts.
-/
theorem claim_C4_cex :
    get_distance_to_krakow (fun _ _ => 0) [] (fun _ _ => .error ()) "nowhere" "" =
        [(-1, none, none)] ∧
      ([((-1 : ℚ), (none : Option ℚ), (none : Option ℚ))] :
        List (ℚ × Option ℚ × Option ℚ)) ≠ [] := by
  decide

/-! ## Claim C9 -/

/--
C9 (corrected): the `otodom` gazetteer loader is total and returns exactly
the entries of the well-formed lines, skipping malformed ones (first
conjunct); the `olx`/`nieruchomosci_online` loader skips only
wrong-field-count lines and completes with the well-formed entries only
under the hypothesis that every 3-field line has parseable coordinates
(second conjunct) — on an unparseable coordinate it raises out of the whole
load, refuting "never raises" (`claim_C9_cex`).
-/
theorem claim_C9 :
    (∀ (pf : String → Option ℚ) (lines : List String),
      load_town_coords pf lines = wellFormedEntries pf lines) ∧
    (∀ (pf : String → Option ℚ) (lines : List String),
      (∀ line ∈ lines, lineParses pf line = true) →
      load_towns pf lines = .ok (wellFormedEntriesPipe pf lines)) := by
  constructor
  · intro pf lines
    induction lines with
    | nil => rfl
    | cons line rest ih =>
      rw [load_town_coords, wellFormedEntries, List.filterMap_cons]
      by_cases h1 : isSkipLine (trimStr line) = true
      · simp only [h1, if_true]
        rw [ih, wellFormedEntries]
      · simp only [h1, Bool.false_eq_true, if_false]
        rcases hsp : splitStr (trimStr line) "," with _ | ⟨t, _ | ⟨las, _ | ⟨los, _ | ⟨d, ds⟩⟩⟩⟩
        all_goals simp only [hsp]
        · rw [ih, wellFormedEntries]
        · rw [ih, wellFormedEntries]
        · rw [ih, wellFormedEntries]
        · rcases hla : pf (trimStr las) with _ | la <;>
            rcases hlo : pf (trimStr los) with _ | lo <;>
            simp only [hla, hlo] <;>
            rw [ih, wellFormedEntries]
        · rw [ih, wellFormedEntries]
  · intro pf lines hall
    induction lines with
    | nil => rfl
    | cons line rest ih =>
      have htail : ∀ l ∈ rest, lineParses pf l = true :=
        fun l hl => hall l (List.mem_cons_of_mem line hl)
      have hhead := hall line (List.mem_cons_self line rest)
      rw [load_towns, wellFormedEntriesPipe, List.filterMap_cons]
      rcases hsp : splitStr (trimStr line) "|" with _ | ⟨t, _ | ⟨las, _ | ⟨los, _ | ⟨d, ds⟩⟩⟩⟩
      all_goals simp only [hsp]
      · rw [ih htail, wellFormedEntriesPipe]
      · rw [ih htail, wellFormedEntriesPipe]
      · rw [ih htail, wellFormedEntriesPipe]
      · rw [lineParses, hsp] at hhead
        have hla : (pf las).isSome := by
          have := Bool.and_elim_left hhead
          simpa using this
        have hlo : (pf los).isSome := by
          have := Bool.and_elim_right hhead
          simpa using this
        rcases Option.isSome_iff_exists.mp hla with ⟨la, hla2⟩
        rcases Option.isSome_iff_exists.mp hlo with ⟨lo, hlo2⟩
        simp only [hla2, hlo2]
        rw [ih htail, wellFormedEntriesPipe]
      · rw [ih htail, wellFormedEntriesPipe]

/--
C9 witness: the otodom loader applied to a file with one malformed and one
good line, and the olx loader applied to an all-parseable file.
-/
theorem claim_C9_witness :
    load_town_coords pfX ["staw,x,19", "ok,1,2"] =
        wellFormedEntries pfX ["staw,x,19", "ok,1,2"] ∧
      load_towns pfX ["a|1|2", "b|c"] =
        .ok (wellFormedEntriesPipe pfX ["a|1|2", "b|c"]) :=
  ⟨claim_C9.1 pfX ["staw,x,19", "ok,1,2"],
    claim_C9.2 pfX ["a|1|2", "b|c"] (by decide)⟩

/--
C9 counterexample: a single gazetteer line with the right field count but
an unparseable latitude makes `load_towns` (the olx/nieruchomosci loader)
raise — it does not skip the line with a warning and complete as the claim
states.
-/
theorem claim_C9_cex :
    load_towns pfX ["staw|x|19"] = .error () ∧
      splitStr (trimStr "staw|x|19") "|" = ["staw", "x", "19"] ∧
      pfX "x" = none :=
  ⟨rfl, by decide, rfl⟩

/-! ## Claim C6 -/

theorem flatMap_congr {α β : Type} {l : List α} {f g : α → List β}
    (h : ∀ a ∈ l, f a = g a) : l.flatMap f = l.flatMap g := by
  induction l with
  | nil => rfl
  | cons a as ih =>
    rw [List.flatMap_cons, List.flatMap_cons, h a (List.mem_cons_self a as),
      ih (fun x hx => h x (List.mem_cons_of_mem a hx))]

theorem mem_reconcile_firsts (prev : List Rec) (today : String)
    (batch : List Item)
    (hprev : ∀ r ∈ prev, ∀ s ∈ prev, r.link = s.link →
      r.priceFirst = s.priceFirst ∧ r.dateFirst = s.dateFirst)
    (hbatch : ∀ i ∈ batch, ∀ j ∈ batch, i.link = j.link → i.price = j.price)
    (i : Item) (hi : i ∈ batch) :
    ∀ q ∈ reconcile prev today batch, q.link = i.link →
      q.priceFirst = (firstFind prev today i).1 ∧
        q.dateFirst = (firstFind prev today i).2 := by
  intro q hq hql
  rcases mem_reconcile_cases hq with hoi | hrows
  · rcases mem_oldInactive.mp hoi with ⟨⟨a, ha, hmark⟩, _⟩
    subst hmark
    rw [markOne_link] at hql
    rw [markOne_priceFirst, markOne_dateFirst, firstFind]
    cases hf : prev.find? (fun r => r.link == i.link) with
    | none => exact absurd (beq_iff_eq.mpr hql) (List.find?_eq_none.mp hf a ha)
    | some p =>
      have hp₁ := List.mem_of_find?_eq_some hf
      have hp₂ : p.link = i.link := by
        have hb := List.find?_some hf
        simpa using hb
      exact hprev a ha p hp₁ (hql.trans hp₂.symm)
  · rcases mem_newRows.mp hrows with ⟨j, hj, c, hcj, rfl⟩
    have hql' : j.link = i.link := hql
    have hfind_eq : prev.find? (fun r => r.link == j.link)
        = prev.find? (fun r => r.link == i.link) := by rw [hql']
    constructor
    · show (firstFind prev today j).1 = (firstFind prev today i).1
      rw [firstFind, firstFind, hfind_eq]
      cases prev.find? (fun r => r.link == i.link) with
      | none => exact hbatch j hj i hi hql'
      | some p => rfl
    · show (firstFind prev today j).2 = (firstFind prev today i).2
      rw [firstFind, firstFind, hfind_eq]
      cases prev.find? (fun r => r.link == i.link) with
      | none => rfl
      | some p => rfl

theorem firstFind_reconcile (prev : List Rec) (today : String)
    (batch : List Item)
    (hprev : ∀ r ∈ prev, ∀ s ∈ prev, r.link = s.link →
      r.priceFirst = s.priceFirst ∧ r.dateFirst = s.dateFirst)
    (hbatch : ∀ i ∈ batch, ∀ j ∈ batch, i.link = j.link → i.price = j.price)
    (i : Item) (hi : i ∈ batch) (hc : i.coords ≠ []) :
    firstFind (reconcile prev today batch) today i = firstFind prev today i := by
  rcases List.exists_mem_of_ne_nil i.coords hc with ⟨c, hcc⟩
  have hρ : mkRow prev today i c ∈
      oldInactive (currentLinks batch) prev ++ newRows prev today batch :=
    List.mem_append_right _ (mem_newRows.mpr ⟨i, hi, c, hcc, rfl⟩)
  have hkey : rowKey (mkRow prev today i c) ∈
      (reconcile prev today batch).map rowKey := by
    rw [reconcile]
    exact map_mem_dedupBy.mpr (List.mem_map_of_mem rowKey hρ)
  rcases List.mem_map.mp hkey with ⟨q, hqM, hqkey⟩
  have hql : q.link = i.link := congrArg Prod.fst hqkey
  cases hf : (reconcile prev today batch).find? (fun r => r.link == i.link) with
  | none => exact absurd (beq_iff_eq.mpr hql) (List.find?_eq_none.mp hf q hqM)
  | some q₀ =>
    have hq₀M : q₀ ∈ reconcile prev today batch := List.mem_of_find?_eq_some hf
    have hq₀l : q₀.link = i.link := by
      have hb := List.find?_some hf
      simpa using hb
    have h₀ := mem_reconcile_firsts prev today batch hprev hbatch i hi q₀ hq₀M hq₀l
    show (match (reconcile prev today batch).find? (fun r => r.link == i.link) with
      | some r => (r.priceFirst, r.dateFirst)
      | none => (i.price, today)) = firstFind prev today i
    rw [hf]
    show (q₀.priceFirst, q₀.dateFirst) = firstFind prev today i
    rw [h₀.1, h₀.2]

theorem newRows_reconcile (prev : List Rec) (today : String)
    (batch : List Item)
    (hprev : ∀ r ∈ prev, ∀ s ∈ prev, r.link = s.link →
      r.priceFirst = s.priceFirst ∧ r.dateFirst = s.dateFirst)
    (hbatch : ∀ i ∈ batch, ∀ j ∈ batch, i.link = j.link → i.price = j.price) :
    newRows (reconcile prev today batch) today batch
      = newRows prev today batch := by
  rw [newRows, newRows]
  refine flatMap_congr (fun i hi => ?_)
  rcases hcoords : i.coords with _ | ⟨c, cs⟩
  · rfl
  · have hff := firstFind_reconcile prev today batch hprev hbatch i hi
      (by rw [hcoords]; exact List.cons_ne_nil c cs)
    refine List.map_congr_left (fun x _ => ?_)
    rw [mkRow, mkRow, hff]

theorem oldInactive_reconcile (prev : List Rec) (today : String)
    (batch : List Item) :
    oldInactive (currentLinks batch) (reconcile prev today batch)
      = dedupBy rowKey (oldInactive (currentLinks batch) prev) := by
  have hmark : markInactive (currentLinks batch) (reconcile prev today batch)
      = reconcile prev today batch := by
    rw [markInactive]
    have hid : ∀ r ∈ reconcile prev today batch,
        markOne (currentLinks batch) r = r := by
      intro r hr
      rcases mem_reconcile_cases hr with hoi | hrows
      · exact markOne_eq_self_of_inactive _ (mem_oldInactive.mp hoi).2
      · rw [markOne, if_pos (newRows_link_mem hrows)]
    rw [List.map_congr_left hid]
    exact List.map_id' _
  rw [oldInactive, hmark, reconcile, dedupBy_append, List.filter_append]
  have h₁ : (dedupBy rowKey (oldInactive (currentLinks batch) prev)).filter
      (fun r => !r.active)
      = dedupBy rowKey (oldInactive (currentLinks batch) prev) := by
    refine List.filter_eq_self.mpr (fun a ha => ?_)
    rw [(mem_oldInactive.mp (mem_of_mem_dedupBy ha)).2]
    rfl
  have h₂ : (dedupByAux rowKey
        ((oldInactive (currentLinks batch) prev).map rowKey)
        (newRows prev today batch)).filter (fun r => !r.active) = [] := by
    rw [List.filter_eq_nil_iff]
    intro a ha
    rw [newRows_active (mem_of_mem_dedupByAux ha)]
    simp
  rw [h₁, h₂, List.append_nil]

/--
C6 (corrected): re-applying the same batch to the output of a
reconciliation reproduces that output — provided the persisted records
sharing a link agree on their first-found price and date, and the batch
items sharing a link agree on their price.  Without these hypotheses the
by-position `iloc[0]` lookup can change which first-found values are copied
on the second run (`claim_C6_cex`).
-/
theorem claim_C6 (prev : List Rec) (today : String) (batch : List Item)
    (hprev : ∀ r ∈ prev, ∀ s ∈ prev, r.link = s.link →
      r.priceFirst = s.priceFirst ∧ r.dateFirst = s.dateFirst)
    (hbatch : ∀ i ∈ batch, ∀ j ∈ batch, i.link = j.link → i.price = j.price) :
    reconcile (reconcile prev today batch) today batch
      = reconcile prev today batch := by
  conv_lhs => rw [reconcile]
  rw [oldInactive_reconcile, newRows_reconcile prev today batch hprev hbatch,
    dedupBy_idem_append, reconcile]

/--
C6 witness: idempotence on a concrete run whose previous set and batch
satisfy the per-link agreement hypotheses.
-/
theorem claim_C6_witness :
    reconcile (reconcile [recL1] "2025-10-12" [itemL1]) "2025-10-12" [itemL1]
      = reconcile [recL1] "2025-10-12" [itemL1] :=
  claim_C6 [recL1] "2025-10-12" [itemL1] (by decide) (by decide)

/--
C6 counterexample: a batch containing the same link `L` twice with
different prices (and distinct coordinates) is not idempotent: on the
second run the first generated row is found by the `iloc[0]` lookup, so the
second row's `Price at first find` flips from `200` to `100` — refuting the
unconditional `reconcile(reconcile(A,B),B) = reconcile(A,B)`.
-/
theorem claim_C6_cex :
    reconcile (reconcile [] "d" [itemPx1, itemPx2]) "d" [itemPx1, itemPx2]
      ≠ reconcile [] "d" [itemPx1, itemPx2] := by
  decide

end PlotsScript
